import Mathlib

/-!
Shallow embedding of the payments-engine ledger (src/ledger.rs) and proofs
about it.

Modelling choices:
* `u16` client identifiers and `u32` transaction identifiers are modelled as
  `Nat`; no operation of the ledger does arithmetic on identifiers, so the
  width is irrelevant.
* `rust_decimal::Decimal` amounts are modelled as `Rat`: the ledger only
  adds, subtracts and compares amounts, and on those operations fixed-point
  decimals embed exactly into the rationals.
* The two `HashMap`s are modelled as functions `Nat → Option _`; insertion
  and removal are pointwise updates (`mapUpdate`).
* Rust methods taking `&mut self` are modelled as functions from the ledger
  state to a result paired with the successor state, so that mutations made
  before an early `return Err(..)` persist, exactly as in the source.
* Error messages are kept verbatim except that the quote characters
  surrounding some interpolated values are dropped.
-/

namespace PaymentsLedger

/-- The five-way tag `TransactionType` of src/ledger.rs, used both as the
kind of an incoming record and as the lifecycle state of a stored
transaction. -/
inductive TransactionType where
  | Deposit
  | Withdrawal
  | Dispute
  | Resolve
  | ChargeBack
deriving DecidableEq, Repr

/-- The `Display` rendering of `TransactionType` (lower-case words), used in
error messages. -/
def TransactionType.display : TransactionType → String
  | .Deposit => "deposit"
  | .Withdrawal => "withdrawal"
  | .Dispute => "dispute"
  | .Resolve => "resolve"
  | .ChargeBack => "chargeback"

/-- The error text produced by `check_state_transition` for an illegal pair,
naming the current state and then the requested one. -/
def invalid_transition_message (previous_state self : TransactionType) : String :=
  "Invalid state transition from " ++ previous_state.display ++ " to " ++ self.display

/-- `TransactionType::check_state_transition` (src/ledger.rs lines 30-40):
`self` is the requested new state, `previous_state` the stored one; exactly
the pairs Dispute←Deposit, ChargeBack←Dispute, Resolve←Dispute succeed. -/
def TransactionType.check_state_transition (self previous_state : TransactionType) :
    Except String Unit :=
  match self, previous_state with
  | .Dispute, .Deposit => .ok ()
  | .ChargeBack, .Dispute => .ok ()
  | .Resolve, .Dispute => .ok ()
  | _, _ => .error (invalid_transition_message previous_state self)

/-- The input record `Transaction` of src/ledger.rs: kind, client id,
transaction id, optional amount. -/
structure Transaction where
  transaction_type : TransactionType
  client : Nat
  tx : Nat
  amount : Option Rat
deriving DecidableEq, Repr

/-- `AccountStatus` of src/ledger.rs: the per-client balances and the locked
flag. -/
structure AccountStatus where
  available : Rat
  held : Rat
  total : Rat
  locked : Bool
deriving DecidableEq, Repr

/-- `TransactionInformation` of src/ledger.rs: the stored transaction
metadata (owning client, original amount, current lifecycle state). -/
structure TransactionInformation where
  client : Nat
  amount : Rat
  state : TransactionType
deriving DecidableEq, Repr

/-- The `Ledger` of src/ledger.rs: the transaction store and the account
store, each a keyed map modelled as a function to `Option`. -/
structure Ledger where
  transactions : Nat → Option TransactionInformation
  client_accounts : Nat → Option AccountStatus

/-- Pointwise map update: models `HashMap::insert` (with `some v`) and
`HashMap::remove` (with `none`). -/
def mapUpdate {α : Type} (m : Nat → Option α) (key : Nat) (val : Option α) :
    Nat → Option α :=
  fun k => if k = key then val else m k

/-- `Ledger::new`: both stores empty. -/
def Ledger.new : Ledger :=
  { transactions := fun _ => none, client_accounts := fun _ => none }

/-- The error text of `check_account_is_locked` and of the inline locked
checks in the Deposit and Withdrawal arms. -/
def account_locked_message (client_id : Nat) : String :=
  "Account of client with id " ++ toString client_id ++ " is locked"

/-- `Ledger::handle_transaction_transition` (src/ledger.rs lines 80-101):
looks up the referenced transaction, checks ownership and transition
legality, and commits the new state; returns the updated stored transaction
together with the successor ledger. -/
def Ledger.handle_transaction_transition (self : Ledger) (tx_id : Nat) (client_id : Nat)
    (new_state : TransactionType) : Except String (TransactionInformation × Ledger) :=
  match self.transactions tx_id with
  | none => .error ("Transaction with id " ++ toString tx_id ++ " does not exist")
  | some tx =>
    if tx.client ≠ client_id then
      .error ("Transaction with id " ++ toString tx_id ++
        " does not correspond to client with id " ++ toString client_id)
    else
      match new_state.check_state_transition tx.state with
      | .error e => .error e
      | .ok _ =>
        let updated : TransactionInformation := { tx with state := new_state }
        .ok (updated,
          { self with transactions := mapUpdate self.transactions tx_id (some updated) })

/-- `Ledger::check_account_is_locked` (src/ledger.rs lines 103-110): errors
exactly when the client has an account and it is locked. -/
def Ledger.check_account_is_locked (self : Ledger) (client_id : Nat) : Except String Unit :=
  match self.client_accounts client_id with
  | some account =>
    if account.locked then .error (account_locked_message client_id) else .ok ()
  | none => .ok ()

/-- The duplicate-identifier error text of `store_new_transaction` (the
source string ends in a blank before the closing quote). -/
def duplicate_deposit_message (tx_id : Nat) : String :=
  "Cannot process a deposit with a duplicated transaction id " ++ toString tx_id ++ " "

/-- `Ledger::store_new_transaction` (src/ledger.rs lines 112-136):
insert-if-absent of a fresh stored transaction in state Deposit. -/
def Ledger.store_new_transaction (self : Ledger) (tx_id : Nat) (amount : Rat)
    (client_id : Nat) : Except String Ledger :=
  match self.transactions tx_id with
  | some _ => .error (duplicate_deposit_message tx_id)
  | none =>
    let stored : TransactionInformation :=
      { client := client_id, amount := amount, state := .Deposit }
    .ok { self with transactions := mapUpdate self.transactions tx_id (some stored) }

/-- The duplicate-identifier error text of the Withdrawal arm. -/
def duplicate_withdrawal_message (tx_id : Nat) : String :=
  "Cannot process a withdrawal with a duplicated transaction id " ++ toString tx_id ++ " "

/-- The insufficient-funds error text of the Withdrawal arm. -/
def insufficient_funds_message (amount : Rat) (client_id : Nat) (available : Rat) : String :=
  "Unable to process the withdrawal of " ++ toString amount ++ " for client with id " ++
    toString client_id ++ ": available funds " ++ toString available

/-- `Ledger::handle_new_transaction` (src/ledger.rs lines 138-260). The
result pairs the `Result<(), String>` of the source with the successor
ledger; on an error path the ledger component keeps every mutation made
before the early return (notably the Deposit balance change made before the
duplicate-identifier check). -/
def Ledger.handle_new_transaction (self : Ledger) (transaction : Transaction) :
    Except String Unit × Ledger :=
  match transaction.transaction_type with
  | .Deposit =>
    match transaction.amount with
    | none => (.error "<Deposits must have an amount. Input CSV format is wrong>", self)
    | some amount =>
      match self.client_accounts transaction.client with
      | some account =>
        if account.locked then
          (.error (account_locked_message transaction.client), self)
        else
          let credited : AccountStatus :=
            { account with
              available := account.available + amount,
              total := account.total + amount }
          let ledger1 : Ledger :=
            { self with client_accounts :=
                mapUpdate self.client_accounts transaction.client (some credited) }
          match ledger1.store_new_transaction transaction.tx amount transaction.client with
          | .ok ledger2 => (.ok (), ledger2)
          | .error e => (.error e, ledger1)
      | none =>
        let fresh : AccountStatus :=
          { available := amount, held := 0, total := amount, locked := false }
        let ledger1 : Ledger :=
          { self with client_accounts :=
              mapUpdate self.client_accounts transaction.client (some fresh) }
        match ledger1.store_new_transaction transaction.tx amount transaction.client with
        | .ok ledger2 => (.ok (), ledger2)
        | .error e => (.error e, ledger1)
  | .Withdrawal =>
    match transaction.amount with
    | none => (.error "<Withdrawals must have an amount. Input CSV format is wrong>", self)
    | some amount =>
      match self.transactions transaction.tx with
      | some _ => (.error (duplicate_withdrawal_message transaction.tx), self)
      | none =>
        match self.client_accounts transaction.client with
        | some account =>
          if account.locked then
            (.error (account_locked_message transaction.client), self)
          else if account.available < amount then
            (.error (insufficient_funds_message amount transaction.client account.available),
              self)
          else
            let debited : AccountStatus :=
              { account with
                available := account.available - amount,
                total := account.total - amount }
            let accounts2 := mapUpdate self.client_accounts transaction.client (some debited)
            (.ok (), { self with client_accounts := accounts2 })
        | none => (.ok (), self)
  | .Dispute =>
    match self.check_account_is_locked transaction.client with
    | .error e => (.error e, self)
    | .ok _ =>
      match self.handle_transaction_transition transaction.tx transaction.client .Dispute with
      | .error e => (.error e, self)
      | .ok (tx, ledger1) =>
        match ledger1.client_accounts transaction.client with
        | some account =>
          if account.available ≥ tx.amount then
            let moved : AccountStatus :=
              { account with
                held := account.held + tx.amount,
                available := account.available - tx.amount }
            let accounts2 := mapUpdate ledger1.client_accounts transaction.client (some moved)
            (.ok (), { ledger1 with client_accounts := accounts2 })
          else (.ok (), ledger1)
        | none => (.ok (), ledger1)
  | .Resolve =>
    match self.check_account_is_locked transaction.client with
    | .error e => (.error e, self)
    | .ok _ =>
      match self.handle_transaction_transition transaction.tx transaction.client .Resolve with
      | .error e => (.error e, self)
      | .ok (tx, ledger1) =>
        match ledger1.client_accounts transaction.client with
        | some account =>
          if account.held ≥ tx.amount then
            let moved : AccountStatus :=
              { account with
                held := account.held - tx.amount,
                available := account.available + tx.amount }
            let accounts2 := mapUpdate ledger1.client_accounts transaction.client (some moved)
            (.ok (), { ledger1 with client_accounts := accounts2 })
          else (.ok (), ledger1)
        | none => (.ok (), ledger1)
  | .ChargeBack =>
    match self.check_account_is_locked transaction.client with
    | .error e => (.error e, self)
    | .ok _ =>
      match self.handle_transaction_transition transaction.tx transaction.client .ChargeBack with
      | .error e => (.error e, self)
      | .ok (tx, ledger1) =>
        let ledger2 : Ledger :=
          match ledger1.client_accounts transaction.client with
          | some account =>
            let frozen : AccountStatus :=
              if account.held ≥ tx.amount then
                { account with
                  held := account.held - tx.amount,
                  total := account.total - tx.amount,
                  locked := true }
              else { account with locked := true }
            let accounts2 := mapUpdate ledger1.client_accounts transaction.client (some frozen)
            { ledger1 with client_accounts := accounts2 }
          | none => ledger1
        (.ok (), { ledger2 with transactions := mapUpdate ledger2.transactions transaction.tx none })

/-- Ledger states reachable from the empty ledger by processing a sequence
of transaction records, keeping the successor state of every step whether
the step succeeded or failed (as the processing loop in src/main.rs does). -/
inductive Reachable : Ledger → Prop where
  | new : Reachable Ledger.new
  | step (L : Ledger) (t : Transaction) : Reachable L → Reachable (L.handle_new_transaction t).2

/-- Every account of the store satisfies total = available + held. -/
def BalancedAccounts (L : Ledger) : Prop :=
  ∀ c a, L.client_accounts c = some a → a.total = a.available + a.held

/-- Every stored transaction's owning client has an account. -/
def StoredClientsHaveAccounts (L : Ledger) : Prop :=
  ∀ i ti, L.transactions i = some ti → (L.client_accounts ti.client).isSome = true

instance : DecidableEq (Except String Unit) := fun a b =>
  match a, b with
  | .ok (), .ok () => isTrue rfl
  | .error x, .error y =>
    if h : x = y then isTrue (congrArg Except.error h)
    else isFalse (fun hc => h (Except.error.inj hc))
  | .ok (), .error _ => isFalse (fun hc => Except.noConfusion hc)
  | .error _, .ok () => isFalse (fun hc => Except.noConfusion hc)

/-- A deposit record used by the concrete witnesses. -/
def depositRecord : Transaction :=
  { transaction_type := .Deposit, client := 1, tx := 1, amount := some 5 }

/-- A dispute record referencing `depositRecord`. -/
def disputeRecord : Transaction :=
  { transaction_type := .Dispute, client := 1, tx := 1, amount := none }

/-- A chargeback record referencing `depositRecord`. -/
def chargebackRecord : Transaction :=
  { transaction_type := .ChargeBack, client := 1, tx := 1, amount := none }

/-- A withdrawal record for client 1 with a fresh transaction id. -/
def withdrawalRecord : Transaction :=
  { transaction_type := .Withdrawal, client := 1, tx := 2, amount := some 3 }

/-- A withdrawal record for a client with no account. -/
def withdrawalNoAccountRecord : Transaction :=
  { transaction_type := .Withdrawal, client := 7, tx := 3, amount := some 2 }

/-- A dispute record referencing a transaction id never deposited. -/
def disputeUnknownRecord : Transaction :=
  { transaction_type := .Dispute, client := 1, tx := 99, amount := none }

/-- The ledger after depositing 5 for client 1 under transaction id 1. -/
def ledgerAfterDeposit : Ledger :=
  (Ledger.new.handle_new_transaction depositRecord).2

/-- The ledger after additionally disputing transaction 1. -/
def ledgerAfterDispute : Ledger :=
  (ledgerAfterDeposit.handle_new_transaction disputeRecord).2

/-- The ledger after additionally charging back transaction 1. -/
def ledgerAfterChargeBack : Ledger :=
  (ledgerAfterDispute.handle_new_transaction chargebackRecord).2

theorem mapUpdate_self {α : Type} (m : Nat → Option α) (k : Nat) (v : Option α) :
    mapUpdate m k v k = v := by
  simp [mapUpdate]

theorem mapUpdate_other {α : Type} (m : Nat → Option α) (k key : Nat) (v : Option α)
    (h : k ≠ key) : mapUpdate m key v k = m k := by
  simp [mapUpdate, h]

theorem check_account_is_locked_ok (L : Ledger) (cl : Nat) (a : AccountStatus)
    (hok : L.check_account_is_locked cl = .ok ()) (ha : L.client_accounts cl = some a) :
    a.locked = false := by
  unfold Ledger.check_account_is_locked at hok
  rw [ha] at hok
  by_cases hl : a.locked
  · simp [hl] at hok
  · simpa using hl

theorem store_new_transaction_ok (L : Ledger) (i : Nat) (amt : Rat) (cl : Nat) (L' : Ledger)
    (h : L.store_new_transaction i amt cl = .ok L') :
    L.transactions i = none ∧
      L' = { L with transactions :=
              mapUpdate L.transactions i (some ⟨cl, amt, .Deposit⟩) } := by
  unfold Ledger.store_new_transaction at h
  split at h
  · exact absurd h (by simp)
  · next hnone =>
    refine ⟨hnone, ?_⟩
    simp only [Except.ok.injEq] at h
    exact h.symm

theorem store_new_transaction_error (L : Ledger) (i : Nat) (amt : Rat) (cl : Nat) (e : String)
    (h : L.store_new_transaction i amt cl = .error e) :
    (L.transactions i).isSome = true ∧ e = duplicate_deposit_message i := by
  unfold Ledger.store_new_transaction at h
  split at h
  · next hsome => simp only [Except.error.injEq] at h; simp [hsome, h.symm]
  · exact absurd h (by simp)

theorem handle_transaction_transition_ok (L : Ledger) (i cl : Nat) (ns : TransactionType)
    (tx' : TransactionInformation) (L' : Ledger)
    (h : L.handle_transaction_transition i cl ns = .ok (tx', L')) :
    ∃ tx, L.transactions i = some tx ∧ tx.client = cl ∧
      ns.check_state_transition tx.state = .ok () ∧
      tx' = { tx with state := ns } ∧
      L' = { L with transactions := mapUpdate L.transactions i (some tx') } := by
  unfold Ledger.handle_transaction_transition at h
  split at h
  · exact absurd h (by simp)
  · next tx htx =>
    split at h
    · exact absurd h (by simp)
    · next hcl =>
      rw [not_ne_iff] at hcl
      split at h
      · exact absurd h (by simp)
      · next u hcheck =>
        simp only [Except.ok.injEq, Prod.mk.injEq] at h
        exact ⟨tx, htx, hcl, by rw [hcheck], h.1.symm, by rw [← h.1]; exact h.2.symm⟩

theorem accounts_update_cases_existing (m : Nat → Option AccountStatus) (cl c : Nat)
    (a a2 : AccountStatus) (ha : m cl = some a) (hl : a.locked = false)
    (hbal : a2.total - a2.available - a2.held = a.total - a.available - a.held) :
    mapUpdate m cl (some a2) c = m c ∨
    (c = cl ∧
      ((∃ amt, m c = none ∧ mapUpdate m cl (some a2) c =
          some { available := amt, held := 0, total := amt, locked := false }) ∨
        (∃ b b2, m c = some b ∧ b.locked = false ∧ mapUpdate m cl (some a2) c = some b2 ∧
          b2.total - b2.available - b2.held = b.total - b.available - b.held))) := by
  by_cases hc : c = cl
  · subst hc
    exact Or.inr ⟨rfl, Or.inr ⟨a, a2, ha, hl, mapUpdate_self m c (some a2), hbal⟩⟩
  · exact Or.inl (mapUpdate_other m c cl (some a2) hc)

theorem accounts_update_cases_fresh (m : Nat → Option AccountStatus) (cl c : Nat) (amt : Rat)
    (ha : m cl = none) :
    mapUpdate m cl (some { available := amt, held := 0, total := amt, locked := false }) c
        = m c ∨
    (c = cl ∧
      ((∃ x, m c = none ∧
          mapUpdate m cl (some { available := amt, held := 0, total := amt, locked := false }) c
            = some { available := x, held := 0, total := x, locked := false }) ∨
        (∃ b b2, m c = some b ∧ b.locked = false ∧
          mapUpdate m cl (some { available := amt, held := 0, total := amt, locked := false }) c
            = some b2 ∧
          b2.total - b2.available - b2.held = b.total - b.available - b.held))) := by
  by_cases hc : c = cl
  · subst hc
    exact Or.inr ⟨rfl, Or.inl ⟨amt, ha, mapUpdate_self m c _⟩⟩
  · exact Or.inl (mapUpdate_other m c cl _ hc)

/-- One processing step can change the account store only at the record's
client: there it either creates a fresh balanced unlocked account or updates
an unlocked account preserving total - available - held. -/
theorem step_client_accounts_cases (L : Ledger) (t : Transaction) (c : Nat) :
    (L.handle_new_transaction t).2.client_accounts c = L.client_accounts c ∨
    (c = t.client ∧
      ((∃ amt, L.client_accounts c = none ∧
          (L.handle_new_transaction t).2.client_accounts c =
            some { available := amt, held := 0, total := amt, locked := false }) ∨
        (∃ a a2, L.client_accounts c = some a ∧ a.locked = false ∧
          (L.handle_new_transaction t).2.client_accounts c = some a2 ∧
          a2.total - a2.available - a2.held = a.total - a.available - a.held))) := by
  simp only [Ledger.handle_new_transaction]
  split
  -- Deposit
  · split
    · exact Or.inl rfl
    · split
      · split
        · exact Or.inl rfl
        · next account ha hnl =>
          split
          · next ledger2 hstore =>
            obtain ⟨-, h2⟩ := store_new_transaction_ok _ _ _ _ _ hstore
            subst h2
            exact accounts_update_cases_existing _ _ _ account _ ha
              (by simpa using hnl) (by ring)
          · exact accounts_update_cases_existing _ _ _ account _ ha
              (by simpa using hnl) (by ring)
      · next ha =>
        split
        · next ledger2 hstore =>
          obtain ⟨-, h2⟩ := store_new_transaction_ok _ _ _ _ _ hstore
          subst h2
          exact accounts_update_cases_fresh _ _ _ _ ha
        · exact accounts_update_cases_fresh _ _ _ _ ha
  -- Withdrawal
  · split
    · exact Or.inl rfl
    · split
      · exact Or.inl rfl
      · split
        · split
          · exact Or.inl rfl
          · split
            · exact Or.inl rfl
            · next account ha hnl hge =>
              exact accounts_update_cases_existing _ _ _ account _ ha
                (by simpa using hnl) (by ring)
        · exact Or.inl rfl
  -- Dispute
  · split
    · exact Or.inl rfl
    · next u hchk =>
      split
      · exact Or.inl rfl
      · next tx ledger1 htr =>
        obtain ⟨tx0, htx0, hcl0, hck0, htx', hL1⟩ := handle_transaction_transition_ok _ _ _ _ _ _ htr
        subst hL1
        split
        · next account ha =>
          split
          · exact accounts_update_cases_existing _ _ _ account _ ha
              (check_account_is_locked_ok L t.client account hchk ha) (by ring)
          · exact Or.inl rfl
        · exact Or.inl rfl
  -- Resolve
  · split
    · exact Or.inl rfl
    · next u hchk =>
      split
      · exact Or.inl rfl
      · next tx ledger1 htr =>
        obtain ⟨tx0, htx0, hcl0, hck0, htx', hL1⟩ := handle_transaction_transition_ok _ _ _ _ _ _ htr
        subst hL1
        split
        · next account ha =>
          split
          · exact accounts_update_cases_existing _ _ _ account _ ha
              (check_account_is_locked_ok L t.client account hchk ha) (by ring)
          · exact Or.inl rfl
        · exact Or.inl rfl
  -- ChargeBack
  · split
    · exact Or.inl rfl
    · next u hchk =>
      split
      · exact Or.inl rfl
      · next tx ledger1 htr =>
        obtain ⟨tx0, htx0, hcl0, hck0, htx', hL1⟩ := handle_transaction_transition_ok _ _ _ _ _ _ htr
        subst hL1
        split
        · next account ha =>
          split
          · exact accounts_update_cases_existing _ _ _ account _ ha
              (check_account_is_locked_ok L t.client account hchk ha) (by ring)
          · exact accounts_update_cases_existing _ _ _ account _ ha
              (check_account_is_locked_ok L t.client account hchk ha) (by ring)
        · exact Or.inl rfl

theorem isSome_mapUpdate_some (m : Nat → Option AccountStatus) (cl c : Nat) (a : AccountStatus)
    (h : c ≠ cl → (m c).isSome = true) :
    (mapUpdate m cl (some a) c).isSome = true := by
  by_cases hc : c = cl
  · subst hc; rw [mapUpdate_self]; rfl
  · rw [mapUpdate_other _ _ _ _ hc]; exact h hc

/-- One processing step preserves the balance equation on every account. -/
theorem balanced_step (L : Ledger) (t : Transaction) (h : BalancedAccounts L) :
    BalancedAccounts (L.handle_new_transaction t).2 := by
  intro c a hc
  rcases step_client_accounts_cases L t c with heq | ⟨-, ⟨amt, -, heq⟩ | ⟨b, b2, hb, -, heq, hbal⟩⟩
  · exact h c a (heq ▸ hc)
  · rw [heq] at hc
    obtain rfl : ({ available := amt, held := 0, total := amt, locked := false } : AccountStatus) = a :=
      Option.some.inj hc
    simp
  · rw [heq] at hc
    obtain rfl := Option.some.inj hc
    have hbb := h c b hb
    linarith [hbal, hbb]

/-- One processing step never turns a locked account back into an unlocked
or absent one. -/
theorem locked_mono_step (L : Ledger) (t : Transaction) (c : Nat) (a : AccountStatus)
    (hc : L.client_accounts c = some a) (hl : a.locked = true) :
    ∃ a2, (L.handle_new_transaction t).2.client_accounts c = some a2 ∧ a2.locked = true := by
  rcases step_client_accounts_cases L t c with heq | ⟨-, ⟨amt, hnone, -⟩ | ⟨b, b2, hb, hbl, -, -⟩⟩
  · exact ⟨a, by rw [heq, hc], hl⟩
  · rw [hnone] at hc; cases hc
  · rw [hb] at hc
    obtain rfl : b = a := Option.some.inj hc
    rw [hl] at hbl; cases hbl

/-- One processing step preserves the property that every stored
transaction's owning client has an account. -/
theorem stored_clients_step (L : Ledger) (t : Transaction)
    (hS : StoredClientsHaveAccounts L) :
    StoredClientsHaveAccounts (L.handle_new_transaction t).2 := by
  unfold StoredClientsHaveAccounts
  simp only [Ledger.handle_new_transaction]
  split
  -- Deposit
  · split
    · exact hS
    · split
      · split
        · exact hS
        · next account ha hnl =>
          split
          · next ledger2 hstore =>
            obtain ⟨-, h2⟩ := store_new_transaction_ok _ _ _ _ _ hstore
            subst h2
            intro i ti hti
            have hti2 : mapUpdate L.transactions t.tx
                (some ⟨t.client, _, .Deposit⟩) i = some ti := hti
            by_cases hi : i = t.tx
            · subst hi
              rw [mapUpdate_self] at hti2
              obtain rfl := Option.some.inj hti2
              exact isSome_mapUpdate_some _ _ _ _ (fun hne => absurd rfl hne)
            · rw [mapUpdate_other _ _ _ _ hi] at hti2
              exact isSome_mapUpdate_some _ _ _ _ (fun _ => hS i ti hti2)
          · intro i ti hti
            exact isSome_mapUpdate_some _ _ _ _ (fun _ => hS i ti hti)
      · next ha =>
        split
        · next ledger2 hstore =>
          obtain ⟨-, h2⟩ := store_new_transaction_ok _ _ _ _ _ hstore
          subst h2
          intro i ti hti
          have hti2 : mapUpdate L.transactions t.tx
              (some ⟨t.client, _, .Deposit⟩) i = some ti := hti
          by_cases hi : i = t.tx
          · subst hi
            rw [mapUpdate_self] at hti2
            obtain rfl := Option.some.inj hti2
            exact isSome_mapUpdate_some _ _ _ _ (fun hne => absurd rfl hne)
          · rw [mapUpdate_other _ _ _ _ hi] at hti2
            exact isSome_mapUpdate_some _ _ _ _ (fun _ => hS i ti hti2)
        · intro i ti hti
          exact isSome_mapUpdate_some _ _ _ _ (fun _ => hS i ti hti)
  -- Withdrawal
  · split
    · exact hS
    · split
      · exact hS
      · split
        · split
          · exact hS
          · split
            · exact hS
            · intro i ti hti
              exact isSome_mapUpdate_some _ _ _ _ (fun _ => hS i ti hti)
        · exact hS
  -- Dispute
  · split
    · exact hS
    · next u hchk =>
      split
      · exact hS
      · next tx ledger1 htr =>
        obtain ⟨tx0, htx0, hcl0, hck0, htx', hL1⟩ := handle_transaction_transition_ok _ _ _ _ _ _ htr
        subst hL1
        subst htx'
        split
        · next account ha =>
          split
          · intro i ti hti
            have hti2 : mapUpdate L.transactions t.tx
                (some { tx0 with state := .Dispute }) i = some ti := hti
            by_cases hi : i = t.tx
            · subst hi
              rw [mapUpdate_self] at hti2
              obtain rfl := Option.some.inj hti2
              exact isSome_mapUpdate_some _ _ _ _ (fun hne => absurd hcl0 hne)
            · rw [mapUpdate_other _ _ _ _ hi] at hti2
              exact isSome_mapUpdate_some _ _ _ _ (fun _ => hS i ti hti2)
          · intro i ti hti
            have hti2 : mapUpdate L.transactions t.tx
                (some { tx0 with state := .Dispute }) i = some ti := hti
            by_cases hi : i = t.tx
            · subst hi
              rw [mapUpdate_self] at hti2
              obtain rfl := Option.some.inj hti2
              show (L.client_accounts tx0.client).isSome = true
              exact hS t.tx tx0 htx0
            · rw [mapUpdate_other _ _ _ _ hi] at hti2
              exact hS i ti hti2
        · intro i ti hti
          have hti2 : mapUpdate L.transactions t.tx
              (some { tx0 with state := .Dispute }) i = some ti := hti
          by_cases hi : i = t.tx
          · subst hi
            rw [mapUpdate_self] at hti2
            obtain rfl := Option.some.inj hti2
            show (L.client_accounts tx0.client).isSome = true
            exact hS t.tx tx0 htx0
          · rw [mapUpdate_other _ _ _ _ hi] at hti2
            exact hS i ti hti2
  -- Resolve
  · split
    · exact hS
    · next u hchk =>
      split
      · exact hS
      · next tx ledger1 htr =>
        obtain ⟨tx0, htx0, hcl0, hck0, htx', hL1⟩ := handle_transaction_transition_ok _ _ _ _ _ _ htr
        subst hL1
        subst htx'
        split
        · next account ha =>
          split
          · intro i ti hti
            have hti2 : mapUpdate L.transactions t.tx
                (some { tx0 with state := .Resolve }) i = some ti := hti
            by_cases hi : i = t.tx
            · subst hi
              rw [mapUpdate_self] at hti2
              obtain rfl := Option.some.inj hti2
              exact isSome_mapUpdate_some _ _ _ _ (fun hne => absurd hcl0 hne)
            · rw [mapUpdate_other _ _ _ _ hi] at hti2
              exact isSome_mapUpdate_some _ _ _ _ (fun _ => hS i ti hti2)
          · intro i ti hti
            have hti2 : mapUpdate L.transactions t.tx
                (some { tx0 with state := .Resolve }) i = some ti := hti
            by_cases hi : i = t.tx
            · subst hi
              rw [mapUpdate_self] at hti2
              obtain rfl := Option.some.inj hti2
              show (L.client_accounts tx0.client).isSome = true
              exact hS t.tx tx0 htx0
            · rw [mapUpdate_other _ _ _ _ hi] at hti2
              exact hS i ti hti2
        · intro i ti hti
          have hti2 : mapUpdate L.transactions t.tx
              (some { tx0 with state := .Resolve }) i = some ti := hti
          by_cases hi : i = t.tx
          · subst hi
            rw [mapUpdate_self] at hti2
            obtain rfl := Option.some.inj hti2
            show (L.client_accounts tx0.client).isSome = true
            exact hS t.tx tx0 htx0
          · rw [mapUpdate_other _ _ _ _ hi] at hti2
            exact hS i ti hti2
  -- ChargeBack
  · split
    · exact hS
    · next u hchk =>
      split
      · exact hS
      · next tx ledger1 htr =>
        obtain ⟨tx0, htx0, hcl0, hck0, htx', hL1⟩ := handle_transaction_transition_ok _ _ _ _ _ _ htr
        subst hL1
        subst htx'
        split
        · next account ha =>
          intro i ti hti
          have hti2 : mapUpdate (mapUpdate L.transactions t.tx
              (some { tx0 with state := .ChargeBack })) t.tx none i = some ti := hti
          by_cases hi : i = t.tx
          · subst hi; rw [mapUpdate_self] at hti2; cases hti2
          · rw [mapUpdate_other _ _ _ _ hi, mapUpdate_other _ _ _ _ hi] at hti2
            exact isSome_mapUpdate_some _ _ _ _ (fun _ => hS i ti hti2)
        · intro i ti hti
          have hti2 : mapUpdate (mapUpdate L.transactions t.tx
              (some { tx0 with state := .ChargeBack })) t.tx none i = some ti := hti
          by_cases hi : i = t.tx
          · subst hi; rw [mapUpdate_self] at hti2; cases hti2
          · rw [mapUpdate_other _ _ _ _ hi, mapUpdate_other _ _ _ _ hi] at hti2
            exact hS i ti hti2

/-- The empty ledger satisfies the balance equation vacuously. -/
theorem balanced_new : BalancedAccounts Ledger.new := by
  intro c a hc
  simp [Ledger.new] at hc

/-- The empty ledger stores no transaction. -/
theorem stored_clients_new : StoredClientsHaveAccounts Ledger.new := by
  intro i ti hti
  simp [Ledger.new] at hti

/-- Every reachable ledger satisfies the balance equation on every account. -/
theorem balanced_reachable (L : Ledger) (h : Reachable L) : BalancedAccounts L := by
  induction h with
  | new => exact balanced_new
  | step L t _ ih => exact balanced_step L t ih

/-- Every reachable ledger satisfies the stored-client invariant. -/
theorem stored_clients_reachable (L : Ledger) (h : Reachable L) :
    StoredClientsHaveAccounts L := by
  induction h with
  | new => exact stored_clients_new
  | step L t _ ih => exact stored_clients_step L t ih

/-- C1: in every ledger state reachable from the empty ledger by applying
`handle_new_transaction` to any sequence of transaction records, every
account of the account store satisfies total = available + held, after
successful and after rejected operations alike. -/
theorem reachable_total_eq_available_add_held (L : Ledger) (c : Nat) (a : AccountStatus)
    (hreach : Reachable L) (hc : L.client_accounts c = some a) :
    a.total = a.available + a.held :=
  balanced_reachable L hreach c a hc

/-- Witness for C1: the concrete ledger reached by one deposit of 5. -/
theorem reachable_total_eq_available_add_held_witness :
    ledgerAfterDeposit.client_accounts 1 =
        some { available := 5, held := 0, total := 5, locked := false } ∧
    ({ available := 5, held := 0, total := 5, locked := false } : AccountStatus).total =
      ({ available := 5, held := 0, total := 5, locked := false } : AccountStatus).available +
        ({ available := 5, held := 0, total := 5, locked := false } : AccountStatus).held :=
  ⟨by decide, reachable_total_eq_available_add_held ledgerAfterDeposit 1
    { available := 5, held := 0, total := 5, locked := false }
    (Reachable.step Ledger.new depositRecord Reachable.new) (by decide)⟩

/-- C3: `check_state_transition` succeeds exactly for the pairs
Dispute←Deposit, Resolve←Dispute and ChargeBack←Dispute; every other pair
yields the invalid-transition error naming the current state and the
requested one. The embedded function takes only the two tags, so it can
read or write no ledger state. -/
theorem check_state_transition_complete (r c : TransactionType) :
    (r.check_state_transition c = .ok () ↔
      ((r = .Dispute ∧ c = .Deposit) ∨ (r = .Resolve ∧ c = .Dispute) ∨
        (r = .ChargeBack ∧ c = .Dispute))) ∧
    (r.check_state_transition c = .ok () ∨
      r.check_state_transition c = .error (invalid_transition_message c r)) := by
  cases r <;> cases c <;> simp [TransactionType.check_state_transition]

/-- C8: the locked flag is monotonic — on any step from any reachable
state, a client account locked before the step is still locked after it. -/
theorem locked_monotonic_step (L : Ledger) (t : Transaction) (c : Nat) (a a2 : AccountStatus)
    (hreach : Reachable L) (hc : L.client_accounts c = some a) (hl : a.locked = true)
    (hc2 : (L.handle_new_transaction t).2.client_accounts c = some a2) :
    a2.locked = true := by
  obtain ⟨b, hb, hbl⟩ := locked_mono_step L t c a hc hl
  rw [hb] at hc2
  obtain rfl := Option.some.inj hc2
  exact hbl

/-- Witness for C8: the account locked by a chargeback stays locked when a
further deposit is rejected. -/
theorem locked_monotonic_step_witness :
    ledgerAfterChargeBack.client_accounts 1 =
        some { available := 0, held := 0, total := 0, locked := true } ∧
    (ledgerAfterChargeBack.handle_new_transaction
        { transaction_type := .Deposit, client := 1, tx := 2, amount := some 3 }).2.client_accounts 1 =
      some { available := 0, held := 0, total := 0, locked := true } ∧
    ({ available := 0, held := 0, total := 0, locked := true } : AccountStatus).locked = true := by
  have h1 : ledgerAfterChargeBack.client_accounts 1 =
      some { available := 0, held := 0, total := 0, locked := true } := by
    norm_num [ledgerAfterChargeBack, ledgerAfterDispute, ledgerAfterDeposit, depositRecord,
      disputeRecord, chargebackRecord, Ledger.handle_new_transaction,
      Ledger.check_account_is_locked, Ledger.handle_transaction_transition,
      Ledger.store_new_transaction, TransactionType.check_state_transition, mapUpdate,
      Ledger.new]
  have h2 : (ledgerAfterChargeBack.handle_new_transaction
      { transaction_type := .Deposit, client := 1, tx := 2, amount := some 3 }).2.client_accounts 1 =
      some { available := 0, held := 0, total := 0, locked := true } := by
    norm_num [ledgerAfterChargeBack, ledgerAfterDispute, ledgerAfterDeposit, depositRecord,
      disputeRecord, chargebackRecord, Ledger.handle_new_transaction,
      Ledger.check_account_is_locked, Ledger.handle_transaction_transition,
      Ledger.store_new_transaction, TransactionType.check_state_transition, mapUpdate,
      Ledger.new]
  exact ⟨h1, h2, locked_monotonic_step ledgerAfterChargeBack
    { transaction_type := .Deposit, client := 1, tx := 2, amount := some 3 } 1 _ _
    (Reachable.step _ _ (Reachable.step _ _ (Reachable.step _ _ Reachable.new))) h1 rfl h2⟩

/-- C10: in every reachable ledger state, the owning client of every stored
transaction has an entry in the account store. -/
theorem stored_transaction_client_has_account (L : Ledger) (i : Nat)
    (ti : TransactionInformation) (hreach : Reachable L)
    (hti : L.transactions i = some ti) :
    (L.client_accounts ti.client).isSome = true :=
  stored_clients_reachable L hreach i ti hti

/-- Witness for C10: the stored deposit's client has an account. -/
theorem stored_transaction_client_has_account_witness :
    ledgerAfterDeposit.transactions 1 =
        some { client := 1, amount := 5, state := .Deposit } ∧
    (ledgerAfterDeposit.client_accounts
      ({ client := 1, amount := 5, state := .Deposit } : TransactionInformation).client).isSome
      = true :=
  ⟨by decide, stored_transaction_client_has_account ledgerAfterDeposit 1
    { client := 1, amount := 5, state := .Deposit }
    (Reachable.step Ledger.new depositRecord Reachable.new) (by decide)⟩

theorem handle_transaction_transition_eq_ok (L : Ledger) (i cl : Nat) (ns : TransactionType)
    (tx : TransactionInformation) (hsome : L.transactions i = some tx)
    (hcl : tx.client = cl) (hck : ns.check_state_transition tx.state = .ok ()) :
    L.handle_transaction_transition i cl ns =
      .ok ({ tx with state := ns },
        { L with transactions := mapUpdate L.transactions i (some { tx with state := ns }) }) := by
  unfold Ledger.handle_transaction_transition
  simp only [hsome]
  rw [if_neg (not_not_intro hcl), hck]

theorem handle_transaction_transition_bad (L : Ledger) (i cl : Nat) (ns : TransactionType)
    (href : L.transactions i = none ∨
      (∃ ti, L.transactions i = some ti ∧ ti.client ≠ cl)) :
    ∃ e, L.handle_transaction_transition i cl ns = .error e := by
  unfold Ledger.handle_transaction_transition
  rcases href with hnone | ⟨ti, hsome, hne⟩
  · simp only [hnone]
    exact ⟨_, rfl⟩
  · simp only [hsome]
    rw [if_pos hne]
    exact ⟨_, rfl⟩

/-- C2: a Deposit carrying an amount, whose transaction identifier already
exists in the transaction store and whose client's account is not locked,
fails with the duplicate-transaction error and adds no second store entry,
yet the client's balances have already been mutated (credited, or the
account freshly created) before the failure. -/
theorem deposit_duplicate_mutates_before_failure (L : Ledger) (t : Transaction) (amount : Rat)
    (htype : t.transaction_type = .Deposit)
    (hamt : t.amount = some amount)
    (hdup : (L.transactions t.tx).isSome = true)
    (hnl : ∀ acc, L.client_accounts t.client = some acc → acc.locked = false) :
    (L.handle_new_transaction t).1 = .error (duplicate_deposit_message t.tx) ∧
    (L.handle_new_transaction t).2.transactions = L.transactions ∧
    (∀ acc, L.client_accounts t.client = some acc →
      (L.handle_new_transaction t).2.client_accounts t.client =
        some { acc with available := acc.available + amount, total := acc.total + amount }) ∧
    (L.client_accounts t.client = none →
      (L.handle_new_transaction t).2.client_accounts t.client =
        some { available := amount, held := 0, total := amount, locked := false }) := by
  obtain ⟨ti0, hti0⟩ := Option.isSome_iff_exists.mp hdup
  simp only [Ledger.handle_new_transaction, htype, hamt]
  split
  · next account ha =>
    have hlf := hnl account ha
    rw [if_neg (by rw [hlf]; exact Bool.false_ne_true)]
    simp only [Ledger.store_new_transaction, hti0]
    refine ⟨by trivial, by trivial, ?_, ?_⟩
    · intro acc hacc
      rw [ha] at hacc
      obtain rfl := Option.some.inj hacc
      exact (mapUpdate_self _ _ _)
    · intro hnone
      rw [ha] at hnone
      cases hnone
  · next ha =>
    simp only [Ledger.store_new_transaction, hti0]
    refine ⟨by trivial, by trivial, ?_, ?_⟩
    · intro acc hacc
      rw [ha] at hacc
      cases hacc
    · intro _
      exact (mapUpdate_self _ _ _)

/-- C6: a Withdrawal carrying an amount, with a fresh transaction
identifier, against an existing unlocked account, fails with the
insufficient-funds error and mutates nothing when available < amount, and
otherwise debits available and total by the amount, leaving available
non-negative. -/
theorem withdrawal_guard (L : Ledger) (t : Transaction) (amount : Rat) (acc : AccountStatus)
    (htype : t.transaction_type = .Withdrawal)
    (hamt : t.amount = some amount)
    (hfresh : L.transactions t.tx = none)
    (hacc : L.client_accounts t.client = some acc)
    (hnl : acc.locked = false) :
    (acc.available < amount →
      L.handle_new_transaction t =
        (.error (insufficient_funds_message amount t.client acc.available), L)) ∧
    (¬ acc.available < amount →
      (L.handle_new_transaction t).1 = .ok () ∧
      (L.handle_new_transaction t).2.transactions = L.transactions ∧
      (L.handle_new_transaction t).2.client_accounts t.client =
        some { acc with available := acc.available - amount, total := acc.total - amount } ∧
      0 ≤ acc.available - amount) := by
  simp only [Ledger.handle_new_transaction, htype, hamt, hfresh, hacc, hnl,
    Bool.false_eq_true, if_false]
  constructor
  · intro hlt
    rw [if_pos hlt]
  · intro hge
    rw [if_neg hge]
    exact ⟨rfl, rfl, mapUpdate_self _ _ _, by linarith [not_lt.mp hge]⟩

/-- C7: a Dispute, Resolve, or ChargeBack whose referenced transaction does
not exist, or belongs to a different client, is rejected and leaves the
ledger entirely unchanged. -/
theorem transition_unknown_or_mismatch_rejected (L : Ledger) (t : Transaction)
    (htype : t.transaction_type = .Dispute ∨ t.transaction_type = .Resolve ∨
      t.transaction_type = .ChargeBack)
    (href : L.transactions t.tx = none ∨
      (∃ ti, L.transactions t.tx = some ti ∧ ti.client ≠ t.client)) :
    (∃ e, (L.handle_new_transaction t).1 = .error e) ∧
    (L.handle_new_transaction t).2 = L := by
  obtain ⟨e0, he0⟩ := handle_transaction_transition_bad L t.tx t.client
    t.transaction_type href
  rcases htype with h3 | h3 | h3 <;>
    (rw [h3] at he0
     simp only [Ledger.handle_new_transaction, h3]
     split
     · exact ⟨⟨_, rfl⟩, rfl⟩
     · rw [he0]
       exact ⟨⟨e0, rfl⟩, rfl⟩)

/-- C9: a Withdrawal carrying an amount, with a fresh transaction
identifier, for a client with no account, reports success and changes
nothing at all. -/
theorem withdrawal_without_account_noop (L : Ledger) (t : Transaction) (amount : Rat)
    (htype : t.transaction_type = .Withdrawal)
    (hamt : t.amount = some amount)
    (hfresh : L.transactions t.tx = none)
    (hnoacc : L.client_accounts t.client = none) :
    L.handle_new_transaction t = (.ok (), L) := by
  simp only [Ledger.handle_new_transaction, htype, hamt, hfresh, hnoacc]

/-- C4: a ChargeBack that passes the locked check and whose referenced
transaction exists, belongs to the given client and is in state Dispute,
succeeds, always locks the client's account (whether or not held covers the
amount), debits held and total only when held >= amount, and removes the
stored transaction. -/
theorem chargeback_locks_and_removes (L : Ledger) (t : Transaction)
    (ti : TransactionInformation)
    (hreach : Reachable L)
    (htype : t.transaction_type = .ChargeBack)
    (hlock : L.check_account_is_locked t.client = .ok ())
    (hti : L.transactions t.tx = some ti)
    (hcl : ti.client = t.client)
    (hst : ti.state = .Dispute) :
    (L.handle_new_transaction t).1 = .ok () ∧
    (L.handle_new_transaction t).2.transactions t.tx = none ∧
    ∃ acc, L.client_accounts t.client = some acc ∧
      (L.handle_new_transaction t).2.client_accounts t.client =
        some (if acc.held ≥ ti.amount then
          { acc with
            held := acc.held - ti.amount,
            total := acc.total - ti.amount,
            locked := true }
        else { acc with locked := true }) := by
  have hisSome := stored_clients_reachable L hreach t.tx ti hti
  rw [hcl] at hisSome
  obtain ⟨acc, hacc⟩ := Option.isSome_iff_exists.mp hisSome
  have htr := handle_transaction_transition_eq_ok L t.tx t.client .ChargeBack ti hti hcl
    (by rw [hst]; rfl)
  simp only [Ledger.handle_new_transaction, htype, hlock, htr, hacc]
  exact ⟨by trivial, mapUpdate_self _ _ _, acc, rfl, mapUpdate_self _ _ _⟩

/-- C5: a successful Dispute (resp. Resolve) always commits the state
change on the stored transaction, while the balance movement is applied
only when available >= amount (resp. held >= amount); when the guard fails
the operation still succeeds and balances are unchanged. -/
theorem dispute_resolve_commit_and_guard (L : Ledger) (t : Transaction)
    (ti : TransactionInformation)
    (hreach : Reachable L)
    (htype : t.transaction_type = .Dispute ∨ t.transaction_type = .Resolve)
    (hlock : L.check_account_is_locked t.client = .ok ())
    (hti : L.transactions t.tx = some ti)
    (hcl : ti.client = t.client)
    (hck : t.transaction_type.check_state_transition ti.state = .ok ()) :
    (L.handle_new_transaction t).1 = .ok () ∧
    (L.handle_new_transaction t).2.transactions t.tx =
      some { ti with state := t.transaction_type } ∧
    ∃ acc, L.client_accounts t.client = some acc ∧
      (t.transaction_type = .Dispute →
        (L.handle_new_transaction t).2.client_accounts t.client =
          some (if acc.available ≥ ti.amount then
            { acc with held := acc.held + ti.amount, available := acc.available - ti.amount }
          else acc)) ∧
      (t.transaction_type = .Resolve →
        (L.handle_new_transaction t).2.client_accounts t.client =
          some (if acc.held ≥ ti.amount then
            { acc with held := acc.held - ti.amount, available := acc.available + ti.amount }
          else acc)) := by
  have hisSome := stored_clients_reachable L hreach t.tx ti hti
  rw [hcl] at hisSome
  obtain ⟨acc, hacc⟩ := Option.isSome_iff_exists.mp hisSome
  rcases htype with h3 | h3
  · have hck2 : TransactionType.Dispute.check_state_transition ti.state = .ok () := by
      rw [← h3]; exact hck
    have htr := handle_transaction_transition_eq_ok L t.tx t.client .Dispute ti hti hcl hck2
    simp only [Ledger.handle_new_transaction, h3, hlock, htr, hacc]
    by_cases hg : acc.available ≥ ti.amount
    · rw [if_pos hg]
      refine ⟨by trivial, mapUpdate_self _ _ _, acc, rfl, fun _ => ?_,
        fun hr => absurd hr (by decide)⟩
      rw [if_pos hg]
      exact mapUpdate_self _ _ _
    · rw [if_neg hg]
      refine ⟨by trivial, mapUpdate_self _ _ _, acc, rfl, fun _ => ?_,
        fun hr => absurd hr (by decide)⟩
      rw [if_neg hg]
      exact hacc
  · have hck2 : TransactionType.Resolve.check_state_transition ti.state = .ok () := by
      rw [← h3]; exact hck
    have htr := handle_transaction_transition_eq_ok L t.tx t.client .Resolve ti hti hcl hck2
    simp only [Ledger.handle_new_transaction, h3, hlock, htr, hacc]
    by_cases hg : acc.held ≥ ti.amount
    · rw [if_pos hg]
      refine ⟨by trivial, mapUpdate_self _ _ _, acc, rfl,
        fun hr => absurd hr (by decide), fun _ => ?_⟩
      rw [if_pos hg]
      exact mapUpdate_self _ _ _
    · rw [if_neg hg]
      refine ⟨by trivial, mapUpdate_self _ _ _, acc, rfl,
        fun hr => absurd hr (by decide), fun _ => ?_⟩
      rw [if_neg hg]
      exact hacc

/-- Witness for C2: depositing again under the already-used id 1. -/
theorem deposit_duplicate_mutates_before_failure_witness :
    (ledgerAfterDeposit.transactions 1).isSome = true ∧
    (ledgerAfterDeposit.handle_new_transaction depositRecord).1 =
      .error (duplicate_deposit_message 1) ∧
    (ledgerAfterDeposit.handle_new_transaction depositRecord).2.transactions =
      ledgerAfterDeposit.transactions ∧
    (ledgerAfterDeposit.handle_new_transaction depositRecord).2.client_accounts 1 =
      some { available := 5 + 5, held := 0, total := 5 + 5, locked := false } := by
  have h5 : ledgerAfterDeposit.client_accounts 1 =
      some { available := 5, held := 0, total := 5, locked := false } := by decide
  have hnl : ∀ acc, ledgerAfterDeposit.client_accounts 1 = some acc → acc.locked = false := by
    intro acc h
    rw [h5] at h
    obtain rfl := Option.some.inj h
    rfl
  have hmain := deposit_duplicate_mutates_before_failure ledgerAfterDeposit depositRecord 5
    rfl rfl (by decide) hnl
  exact ⟨by decide, hmain.1, hmain.2.1, hmain.2.2.1 _ h5⟩

/-- Witness for C4: charging back the disputed deposit of 5. -/
theorem chargeback_locks_and_removes_witness :
    ledgerAfterDispute.transactions 1 =
      some { client := 1, amount := 5, state := .Dispute } ∧
    (ledgerAfterDispute.handle_new_transaction chargebackRecord).1 = .ok () ∧
    (ledgerAfterDispute.handle_new_transaction chargebackRecord).2.transactions 1 = none ∧
    (∃ acc, ledgerAfterDispute.client_accounts 1 = some acc ∧
      (ledgerAfterDispute.handle_new_transaction chargebackRecord).2.client_accounts 1 =
        some (if acc.held ≥ (5 : Rat) then
          { acc with held := acc.held - 5, total := acc.total - 5, locked := true }
        else { acc with locked := true })) := by
  have hmain := chargeback_locks_and_removes ledgerAfterDispute chargebackRecord
    { client := 1, amount := 5, state := .Dispute }
    (Reachable.step _ _ (Reachable.step _ _ Reachable.new)) rfl (by decide) (by decide) rfl rfl
  exact ⟨by decide, hmain.1, hmain.2.1, hmain.2.2⟩

/-- Witness for C5: disputing the deposit of 5. -/
theorem dispute_resolve_commit_and_guard_witness :
    ledgerAfterDeposit.transactions 1 =
      some { client := 1, amount := 5, state := .Deposit } ∧
    (ledgerAfterDeposit.handle_new_transaction disputeRecord).1 = .ok () ∧
    (ledgerAfterDeposit.handle_new_transaction disputeRecord).2.transactions 1 =
      some { client := 1, amount := 5, state := .Dispute } ∧
    (∃ acc, ledgerAfterDeposit.client_accounts 1 = some acc ∧
      (TransactionType.Dispute = TransactionType.Dispute →
        (ledgerAfterDeposit.handle_new_transaction disputeRecord).2.client_accounts 1 =
          some (if acc.available ≥ (5 : Rat) then
            { acc with held := acc.held + 5, available := acc.available - 5 }
          else acc)) ∧
      (TransactionType.Dispute = TransactionType.Resolve →
        (ledgerAfterDeposit.handle_new_transaction disputeRecord).2.client_accounts 1 =
          some (if acc.held ≥ (5 : Rat) then
            { acc with held := acc.held - 5, available := acc.available + 5 }
          else acc))) := by
  have hmain := dispute_resolve_commit_and_guard ledgerAfterDeposit disputeRecord
    { client := 1, amount := 5, state := .Deposit }
    (Reachable.step _ _ Reachable.new) (Or.inl rfl) (by decide) (by decide) rfl rfl
  exact ⟨by decide, hmain.1, hmain.2.1, hmain.2.2⟩

/-- Witness for C6: withdrawing 3 from an account holding 5 succeeds and
leaves 2 available; the guard hypotheses are discharged concretely. -/
theorem withdrawal_guard_witness :
    ledgerAfterDeposit.transactions 2 = none ∧
    ledgerAfterDeposit.client_accounts 1 =
      some { available := 5, held := 0, total := 5, locked := false } ∧
    (ledgerAfterDeposit.handle_new_transaction withdrawalRecord).1 = .ok () ∧
    (ledgerAfterDeposit.handle_new_transaction withdrawalRecord).2.transactions =
      ledgerAfterDeposit.transactions ∧
    (ledgerAfterDeposit.handle_new_transaction withdrawalRecord).2.client_accounts 1 =
      some { available := 5 - 3, held := 0, total := 5 - 3, locked := false } ∧
    (0 : Rat) ≤ 5 - 3 := by
  have hmain := withdrawal_guard ledgerAfterDeposit withdrawalRecord 3
    { available := 5, held := 0, total := 5, locked := false }
    rfl rfl (by decide) (by decide) rfl
  have hs := hmain.2 (by norm_num)
  exact ⟨by decide, by decide, hs.1, hs.2.1, hs.2.2.1, hs.2.2.2⟩

/-- Witness for C7: disputing the never-deposited transaction id 99. -/
theorem transition_unknown_or_mismatch_rejected_witness :
    ledgerAfterDeposit.transactions 99 = none ∧
    (∃ e, (ledgerAfterDeposit.handle_new_transaction disputeUnknownRecord).1 = .error e) ∧
    (ledgerAfterDeposit.handle_new_transaction disputeUnknownRecord).2 = ledgerAfterDeposit := by
  have hmain := transition_unknown_or_mismatch_rejected ledgerAfterDeposit disputeUnknownRecord
    (Or.inl rfl) (Or.inl (by decide))
  exact ⟨by decide, hmain.1, hmain.2⟩

/-- Witness for C9: a withdrawal for client 7, who has no account, is a
silent no-op. -/
theorem withdrawal_without_account_noop_witness :
    ledgerAfterDeposit.transactions 3 = none ∧
    ledgerAfterDeposit.client_accounts 7 = none ∧
    ledgerAfterDeposit.handle_new_transaction withdrawalNoAccountRecord =
      (.ok (), ledgerAfterDeposit) := by
  refine ⟨by decide, by decide, ?_⟩
  exact withdrawal_without_account_noop ledgerAfterDeposit withdrawalNoAccountRecord 2
    rfl rfl (by decide) (by decide)

end PaymentsLedger
